import Mathlib

/-!
Verification of `ipykernel/kernelspec.py`: the module that builds, stages
and installs a Jupyter kernel-spec directory for the IPython kernel.

The module is embedded shallowly:
  * the Python runtime facts it reads (`sys.executable`, `sys.version_info[0]`,
    the bundled `resources` directory) are collected in a context structure
    `Ctx`;
  * pure functions (`make_ipkernel_cmd`, `get_kernel_dict`) become pure Lean
    functions;
  * filesystem-touching functions (`write_kernel_spec`, `install`) become
    state-passing functions over an explicit filesystem model `FS`, returning
    `Except FsError` values paired with the post-state (exceptions do not roll
    back filesystem effects, so the state is returned on the error path too);
  * `tempfile.mkdtemp` is modelled by an oracle stem `t` supplied by the
    caller; freshness of the created directory is a hypothesis of the
    theorems, matching mkdtemp's uniqueness guarantee;
  * the external `KernelSpecManager.install_kernel_spec` collaborator is an
    injected function parameter (a stub), as the spec treats it as opaque;
  * JSON values written to `kernel.json` are kept structurally (the file only
    ever writes objects whose values are strings or arrays of strings).
-/

namespace KernelSpec

/-- JSON values appearing in the kernel descriptor: strings and arrays of
strings are the only shapes this module ever serializes. -/
inductive JVal
  | s : String → JVal
  | arr : List String → JVal
deriving DecidableEq, Repr

/-- Content of a file in the model: either an opaque resource blob or a JSON
object (an ordered field list, mirroring the Python dict literal). -/
inductive FileData
  | blob : String → FileData
  | jsonFile : List (String × JVal) → FileData
deriving DecidableEq, Repr

/-- Facts the module reads from the hosting Python runtime and installation:
the interpreter path `sys.executable`, the major version
`sys.version_info[0]`, and the bundled `resources` directory contents
(relative file name paired with content). -/
structure Ctx where
  sys_executable : String
  sys_version_major : Nat
  resources : List (String × FileData)
deriving DecidableEq, Repr

/-- Embeds `KERNEL_NAME = 'python%i' % sys.version_info[0]`. -/
def KERNEL_NAME (ctx : Ctx) : String :=
  "python" ++ toString ctx.sys_version_major

/-- Embeds `make_ipkernel_cmd(mod='ipykernel', executable=None,
extra_arguments=[], **kw)`: builds the Popen command list. `executable=None`
defaults to `sys.executable`; `kw` collects extra keyword arguments, which the
body never reads. -/
def make_ipkernel_cmd (ctx : Ctx) (mod : String := "ipykernel")
    (executable : Option String := none)
    (extra_arguments : List String := [])
    (kw : List (String × String) := []) : List String :=
  let ex := executable.getD ctx.sys_executable
  let _ := kw
  [ex, "-m", mod, "-f", "{connection_file}"] ++ extra_arguments

/-- Embeds `get_kernel_dict()`: the dict written to `kernel.json`, with fields
`argv`, `display_name` (`'Python %i' % sys.version_info[0]`) and `language`. -/
def get_kernel_dict (ctx : Ctx) : List (String × JVal) :=
  [ ("argv", JVal.arr (make_ipkernel_cmd ctx)),
    ("display_name", JVal.s ("Python " ++ toString ctx.sys_version_major)),
    ("language", JVal.s "python") ]

/-- Possible filesystem errors of this module's operations. -/
inductive FsError
  | destExists (p : String)
  | notFound (p : String)
deriving DecidableEq, Repr

/-- Filesystem model: the set of existing directories and a flat map from
absolute file path to content, both as lists. -/
structure FS where
  dirs : List String
  files : List (String × FileData)
deriving DecidableEq, Repr

/-- Whether path `p` exists, either as a directory or as a file. -/
def existsPath (fs : FS) (p : String) : Bool :=
  fs.dirs.contains p || fs.files.any (fun f => f.1 == p)

/-- Content of the file at path `p`, if any. -/
def lookupFile (fs : FS) (p : String) : Option FileData :=
  (fs.files.find? (fun f => f.1 == p)).map (·.2)

/-- Whether path `p` lies strictly below directory `root`, i.e. has
`root ++ "/"` as a textual prefix. -/
def isUnder (root p : String) : Bool :=
  (root ++ "/").data.isPrefixOf p.data

/-- All files lying strictly below directory `root`. -/
def filesUnder (fs : FS) (root : String) : List (String × FileData) :=
  fs.files.filter (fun f => isUnder root f.1)

/-- Embeds `tempfile.mkdtemp(suffix=...)`: the oracle stem `t` stands for the
random fresh component chosen by `mkdtemp`; the created directory is
`t ++ suffix` and is recorded in the filesystem. Uniqueness of the result is
mkdtemp's guarantee and appears as a freshness hypothesis in the theorems. -/
def mkdtemp (fs : FS) (t suffix : String) : String × FS :=
  let d := t ++ suffix
  (d, { fs with dirs := d :: fs.dirs })

/-- Embeds `shutil.copytree(RESOURCES, dst)`: fails when `dst` already exists
(as `os.makedirs(dst)` does, leaving the filesystem untouched); otherwise
creates `dst` and copies every bundled resource file under it. -/
def copytree (res : List (String × FileData)) (fs : FS) (dst : String) :
    Except FsError Unit × FS :=
  if existsPath fs dst then (Except.error (FsError.destExists dst), fs)
  else (Except.ok (),
    { dirs := dst :: fs.dirs,
      files := res.map (fun r => (dst ++ "/" ++ r.1, r.2)) ++ fs.files })

/-- Embeds `open(p, 'w')` followed by `json.dump`: creates or truncates the
file at `p` with content `d`. -/
def writeFile (fs : FS) (p : String) (d : FileData) : FS :=
  { fs with files := (p, d) :: fs.files.filter (fun f => !(f.1 == p)) }

/-- Embeds `shutil.rmtree(p)`: fails when `p` is not an existing directory;
otherwise removes `p` and everything below it. -/
def rmtree (fs : FS) (p : String) : Except FsError Unit × FS :=
  if fs.dirs.contains p then
    (Except.ok (),
      { dirs := fs.dirs.filter (fun d => !(d == p || isUnder p d)),
        files := fs.files.filter (fun f => !(isUnder p f.1)) })
  else (Except.error (FsError.notFound p), fs)

/-- Embeds `write_kernel_spec(path=None)`: when no path is given, stages into
a fresh temporary directory (suffix `_kernels`) extended by the fixed
`KERNEL_NAME` subpath; copies the bundled resources to the destination, then
writes `kernel.json` with the kernel dict; returns the destination path.
The filesystem state is returned on the error path too, since a propagating
exception does not undo earlier filesystem effects. -/
def write_kernel_spec (ctx : Ctx) (fs : FS) (t : String)
    (path : Option String := none) : Except FsError String × FS :=
  let (p, fs) :=
    match path with
    | none =>
      let (d, fs) := mkdtemp fs t "_kernels"
      (d ++ "/" ++ KERNEL_NAME ctx, fs)
    | some p => (p, fs)
  match copytree ctx.resources fs p with
  | (Except.error e, fs) => (Except.error e, fs)
  | (Except.ok _, fs) =>
    let fs := writeFile fs (p ++ "/" ++ "kernel.json")
      (FileData.jsonFile (get_kernel_dict ctx))
    (Except.ok p, fs)

/-- Errors escaping `install`: either a filesystem error of the staging and
cleanup steps, or an error raised by the spec-manager collaborator. -/
inductive InstallErr (ε : Type)
  | fsErr (e : FsError)
  | ksmErr (e : ε)
deriving DecidableEq, Repr

/-- Embeds `install(kernel_spec_manager, user, kernel_name, prefix)` with the
collaborator injected as the function `ksm` (its `install_kernel_spec`
operation, a stub returning the install destination or an error). The
`kernel_name` default is `KERNEL_NAME`; staging always goes to a fresh
temporary directory (oracle stem `t`); on success of the delegation the
staging tree is removed and the collaborator's destination returned. -/
def install (ctx : Ctx) {ε : Type}
    (ksm : String → String → Bool → Option String → Except ε String)
    (fs : FS) (t : String) (user : Bool := false)
    (kernel_name : Option String := none)
    (pfx : Option String := none) : Except (InstallErr ε) String × FS :=
  let name := kernel_name.getD (KERNEL_NAME ctx)
  match write_kernel_spec ctx fs t none with
  | (Except.error e, fs) => (Except.error (InstallErr.fsErr e), fs)
  | (Except.ok path, fs) =>
    match ksm path name user pfx with
    | Except.error e => (Except.error (InstallErr.ksmErr e), fs)
    | Except.ok dest =>
      match rmtree fs path with
      | (Except.error e, fs) => (Except.error (InstallErr.fsErr e), fs)
      | (Except.ok _, fs) => (Except.ok dest, fs)

/-- Options produced by the `argparse` parser of the `__main__` block:
`--user` (store_true, default false), `--name` (default `KERNEL_NAME`),
`--prefix` (default absent). -/
structure Opts where
  user : Bool
  name : String
  pfx : Option String
deriving DecidableEq, Repr

/-- Default option values of the `__main__` argument parser. -/
def defaultOpts (ctx : Ctx) : Opts :=
  { user := false, name := KERNEL_NAME ctx, pfx := none }

/-- Embeds the `argparse` parsing of the `__main__` block over a token list:
`--user` sets the flag, `--name` and `--prefix` consume the following token
as their value; anything else is an argument-parsing error (`none`). -/
def parseArgs : List String → Opts → Option Opts
  | [], o => some o
  | a :: rest, o =>
    if a = "--user" then parseArgs rest { o with user := true }
    else if a = "--name" then
      match rest with
      | v :: rest2 => parseArgs rest2 { o with name := v }
      | [] => none
    else if a = "--prefix" then
      match rest with
      | v :: rest2 => parseArgs rest2 { o with pfx := some v }
      | [] => none
    else none

/-- Embeds the `__main__` block: parse the command line (`none` models the
parser's error exit), call `install(user=opts.user, kernel_name=opts.name,
prefix=opts.prefix)`, and on success print
`"Installed kernelspec <name> in <dest>"`; an install error propagates. -/
def mainEntry (ctx : Ctx) {ε : Type}
    (ksm : String → String → Bool → Option String → Except ε String)
    (fs : FS) (t : String) (args : List String) :
    Option (Except (InstallErr ε) String × FS) :=
  match parseArgs args (defaultOpts ctx) with
  | none => none
  | some opts =>
    match install ctx ksm fs t opts.user (some opts.name) opts.pfx with
    | (Except.ok dest, fs) =>
      some (Except.ok ("Installed kernelspec " ++ opts.name ++ " in " ++ dest),
        fs)
    | (Except.error e, fs) => some (Except.error e, fs)

/-- Heap of Python list objects, for reasoning about aliasing and mutation of
the shared default argument `extra_arguments=[]`: cells are addressed by
index, a reference is an index into the cell list. -/
structure PyHeap where
  cells : List (List String)
deriving DecidableEq, Repr

/-- Allocates a fresh list object holding `xs`, returning its reference. -/
def PyHeap.alloc (h : PyHeap) (xs : List String) : Nat × PyHeap :=
  (h.cells.length, ⟨h.cells ++ [xs]⟩)

/-- Contents of the list object behind reference `r`. -/
def PyHeap.read (h : PyHeap) (r : Nat) : List String :=
  h.cells.getD r []

/-- Embeds `a.extend(b)`: appends the contents of the object behind `src` to
the object behind `dst`, in place. -/
def PyHeap.extendRef (h : PyHeap) (dst src : Nat) : PyHeap :=
  ⟨h.cells.set dst (h.read dst ++ h.read src)⟩

/-- Embeds `make_ipkernel_cmd` at the Python object level: the default
`extra_arguments=[]` is the single module-level list object behind
`extraRef`, evaluated once at definition time; the body builds a fresh
`arguments` list and calls `arguments.extend(extra_arguments)` on it,
returning the fresh reference. -/
def make_ipkernel_cmd_heap (ctx : Ctx) (mod : String)
    (executable : Option String) (extraRef : Nat) (h : PyHeap) :
    Nat × PyHeap :=
  let ex := executable.getD ctx.sys_executable
  let (argRef, h) := h.alloc [ex, "-m", mod, "-f", "{connection_file}"]
  let h := h.extendRef argRef extraRef
  (argRef, h)

end KernelSpec

namespace KernelSpec

/-! Helper lemmas on strings and the filesystem model. -/

/-- Appending a slash and a component never gives back the base path. -/
lemma append_sep_ne (a b : String) : ((a ++ "/") ++ b == a) = false := by
  apply beq_eq_false_iff_ne.mpr
  intro h
  have hl := congrArg String.length h
  rw [String.length_append, String.length_append] at hl
  have h1 : ("/" : String).length = 1 := rfl
  omega

/-- String append cancels on the left, at the level of boolean equality. -/
lemma append_left_cancel_beq (a b c : String) :
    ((a ++ b) == (a ++ c)) = (b == c) := by
  rcases hbc : (b == c) with _ | _
  · apply beq_eq_false_iff_ne.mpr
    intro h
    have hD := congrArg String.data h
    rw [String.data_append, String.data_append] at hD
    exact (beq_eq_false_iff_ne.mp hbc) (String.ext (List.append_cancel_left hD))
  · have hbc' : b = c := beq_iff_eq.mp hbc
    subst hbc'
    exact beq_self_eq_true _

/-- A path extended by a slash and a component lies under the base path. -/
lemma isUnder_append (p x : String) : isUnder p ((p ++ "/") ++ x) = true := by
  unfold isUnder
  rw [String.data_append]
  exact List.isPrefixOf_iff_prefix.mpr (List.prefix_append _ _)

/-- C2: for every module name, executable string and extra-argument list,
`make_ipkernel_cmd` returns `[executable, "-m", mod, "-f",
"{connection_file}"]` followed by the extra arguments in order; with no
arguments it returns a 5-element list whose last element is the literal
placeholder `"{connection_file}"`. -/
theorem make_ipkernel_cmd_spec (ctx : Ctx) (mod ex : String)
    (extra : List String) :
    make_ipkernel_cmd ctx mod (some ex) extra
      = [ex, "-m", mod, "-f", "{connection_file}"] ++ extra
    ∧ (make_ipkernel_cmd ctx).length = 5
    ∧ (make_ipkernel_cmd ctx).getLast? = some "{connection_file}" := by
  refine ⟨rfl, rfl, rfl⟩

/-- C3: `get_kernel_dict` always returns a descriptor with exactly the three
fields `argv`, `display_name`, `language`, in which `language` is the literal
string `"python"`, `argv` is the Command Builder's default output, and
`display_name` contains the runtime's major version number as a substring. -/
theorem get_kernel_dict_spec (ctx : Ctx) :
    (get_kernel_dict ctx).map Prod.fst = ["argv", "display_name", "language"]
    ∧ (get_kernel_dict ctx).lookup "language" = some (JVal.s "python")
    ∧ (get_kernel_dict ctx).lookup "argv"
        = some (JVal.arr (make_ipkernel_cmd ctx))
    ∧ ∃ pre post, (∃ d, (get_kernel_dict ctx).lookup "display_name"
          = some (JVal.s d)
          ∧ d = pre ++ toString ctx.sys_version_major ++ post) := by
  refine ⟨rfl, rfl, rfl, "Python ", "", ?_⟩
  exact ⟨"Python " ++ toString ctx.sys_version_major, rfl, by simp⟩

/-- C9: `make_ipkernel_cmd` accepts arbitrary extra keyword arguments and
ignores them: two calls with equal `mod`, `executable` and `extra_arguments`
but different keyword arguments return equal command lists. -/
theorem make_ipkernel_cmd_ignores_kw (ctx : Ctx) (mod : String)
    (executable : Option String) (extra : List String)
    (kw kw' : List (String × String)) :
    make_ipkernel_cmd ctx mod executable extra kw
      = make_ipkernel_cmd ctx mod executable extra kw' := rfl

/-- When the staging destination is fresh (mkdtemp's guarantee),
`write_kernel_spec` without a path succeeds and produces exactly the staged
directory: the temp dir, the staging dir, the copied resources and the
generated `kernel.json`. -/
lemma write_kernel_spec_none_eq (ctx : Ctx) (fs : FS) (t : String)
    (hfresh : existsPath fs ((t ++ "_kernels") ++ "/" ++ KERNEL_NAME ctx) = false) :
    write_kernel_spec ctx fs t none
      = (Except.ok ((t ++ "_kernels") ++ "/" ++ KERNEL_NAME ctx),
         { dirs := ((t ++ "_kernels") ++ "/" ++ KERNEL_NAME ctx)
             :: (t ++ "_kernels") :: fs.dirs,
           files := (((t ++ "_kernels") ++ "/" ++ KERNEL_NAME ctx) ++ "/" ++ "kernel.json",
               FileData.jsonFile (get_kernel_dict ctx)) ::
             (ctx.resources.map
                 (fun r => (((t ++ "_kernels") ++ "/" ++ KERNEL_NAME ctx) ++ "/" ++ r.1, r.2))
               ++ fs.files).filter
               (fun f =>
                 !(f.1 == ((t ++ "_kernels") ++ "/" ++ KERNEL_NAME ctx) ++ "/" ++ "kernel.json")) }) := by
  have hcond : existsPath
      { dirs := (t ++ "_kernels") :: fs.dirs, files := fs.files : FS}
      ((t ++ "_kernels") ++ "/" ++ KERNEL_NAME ctx) = false := by
    unfold existsPath at hfresh ⊢
    simp only [List.contains_eq_any_beq, List.any_cons] at hfresh ⊢
    rw [append_sep_ne]
    simpa using hfresh
  unfold write_kernel_spec mkdtemp copytree writeFile
  simp only [hcond]
  rfl

/-- Removing an existing directory succeeds and afterwards the path no longer
exists, provided no plain file sat at the directory's own path. -/
lemma rmtree_removes (fs : FS) (p : String)
    (hdir : fs.dirs.contains p = true)
    (hfile : ∀ f ∈ fs.files, (f.1 == p) = false) :
    (rmtree fs p).1 = Except.ok ()
    ∧ existsPath (rmtree fs p).2 p = false := by
  unfold rmtree
  simp only [hdir, if_true]
  refine ⟨by trivial, ?_⟩
  unfold existsPath
  apply Bool.or_eq_false_iff.mpr
  constructor
  · rw [List.contains_eq_any_beq]
    apply List.any_eq_false.mpr
    intro x hx
    have hmem := List.mem_filter.mp hx
    intro hpx
    have hxp : x = p := (beq_iff_eq.mp hpx).symm
    subst hxp
    rw [beq_self_eq_true] at hmem
    simp at hmem
  · apply List.any_eq_false.mpr
    intro f hf
    have hmem := List.mem_of_mem_filter hf
    simp [hfile f hmem]

/-- C4: `write_kernel_spec` with no path stages into the fresh temporary
directory extended by the fixed `KERNEL_NAME` subpath (so the returned path
ends in the kernel-name suffix), copies the bundled resources to it, writes a
`kernel.json` whose content is the Spec Assembler's descriptor, and returns
that destination path. -/
theorem write_kernel_spec_default_spec (ctx : Ctx) (fs : FS) (t : String)
    (hfresh : existsPath fs ((t ++ "_kernels") ++ "/" ++ KERNEL_NAME ctx) = false) :
    ∃ fs',
      write_kernel_spec ctx fs t none
        = (Except.ok ((t ++ "_kernels") ++ "/" ++ KERNEL_NAME ctx), fs')
      ∧ (∃ pre, (t ++ "_kernels") ++ "/" ++ KERNEL_NAME ctx = pre ++ KERNEL_NAME ctx)
      ∧ lookupFile fs'
          (((t ++ "_kernels") ++ "/" ++ KERNEL_NAME ctx) ++ "/" ++ "kernel.json")
          = some (FileData.jsonFile (get_kernel_dict ctx))
      ∧ ∀ r ∈ ctx.resources, r.1 ≠ "kernel.json" →
          (((t ++ "_kernels") ++ "/" ++ KERNEL_NAME ctx) ++ "/" ++ r.1, r.2)
            ∈ fs'.files := by
  refine ⟨_, write_kernel_spec_none_eq ctx fs t hfresh,
    ⟨(t ++ "_kernels") ++ "/", rfl⟩, ?_, ?_⟩
  · unfold lookupFile
    simp [List.find?_cons]
  · intro r hr hne
    refine List.mem_cons_of_mem _ (List.mem_filter.mpr ⟨?_, ?_⟩)
    · exact List.mem_append_left _ (List.mem_map.mpr ⟨r, hr, rfl⟩)
    · simp only [append_left_cancel_beq]
      simpa using hne

/-- Closed witness for `write_kernel_spec_default_spec` at a concrete
context, empty filesystem and concrete temp stem. -/
theorem write_kernel_spec_default_spec_witness :
    existsPath ⟨[], []⟩
        (("/tmp/x" ++ "_kernels") ++ "/" ++ KERNEL_NAME ⟨"/usr/bin/python", 2, []⟩)
        = false
    ∧ ∃ fs',
      write_kernel_spec ⟨"/usr/bin/python", 2, []⟩ ⟨[], []⟩ "/tmp/x" none
        = (Except.ok (("/tmp/x" ++ "_kernels") ++ "/"
            ++ KERNEL_NAME ⟨"/usr/bin/python", 2, []⟩), fs')
      ∧ (∃ pre, ("/tmp/x" ++ "_kernels") ++ "/" ++ KERNEL_NAME ⟨"/usr/bin/python", 2, []⟩
          = pre ++ KERNEL_NAME ⟨"/usr/bin/python", 2, []⟩)
      ∧ lookupFile fs'
          ((("/tmp/x" ++ "_kernels") ++ "/" ++ KERNEL_NAME ⟨"/usr/bin/python", 2, []⟩)
            ++ "/" ++ "kernel.json")
          = some (FileData.jsonFile (get_kernel_dict ⟨"/usr/bin/python", 2, []⟩))
      ∧ ∀ r ∈ Ctx.resources ⟨"/usr/bin/python", 2, []⟩, r.1 ≠ "kernel.json" →
          ((("/tmp/x" ++ "_kernels") ++ "/" ++ KERNEL_NAME ⟨"/usr/bin/python", 2, []⟩)
            ++ "/" ++ r.1, r.2) ∈ FS.files fs' :=
  ⟨by decide, write_kernel_spec_default_spec ⟨"/usr/bin/python", 2, []⟩ ⟨[], []⟩
    "/tmp/x" (by decide)⟩

/-- When the explicit destination is fresh, `write_kernel_spec` succeeds and
produces exactly the destination directory with the copied resources and the
generated `kernel.json`. -/
lemma write_kernel_spec_some_eq (ctx : Ctx) (fs : FS) (t p : String)
    (h1 : existsPath fs p = false) :
    write_kernel_spec ctx fs t (some p)
      = (Except.ok p,
         { dirs := p :: fs.dirs,
           files := (p ++ "/" ++ "kernel.json",
               FileData.jsonFile (get_kernel_dict ctx)) ::
             (ctx.resources.map (fun r => (p ++ "/" ++ r.1, r.2))
               ++ fs.files).filter
               (fun f => !(f.1 == p ++ "/" ++ "kernel.json")) }) := by
  unfold write_kernel_spec copytree writeFile
  simp only [h1]
  rfl

/-- C10: `write_kernel_spec` writes `kernel.json` after copying the resource
tree, so a resource file named `kernel.json` is overwritten by the generated
descriptor: the staged directory holds exactly the freshly generated
`kernel.json` plus the resources other than `kernel.json`. -/
theorem write_kernel_spec_kernel_json_wins (ctx : Ctx) (fs : FS) (t p : String)
    (h1 : existsPath fs p = false)
    (h2 : ∀ f ∈ fs.files, isUnder p f.1 = false) :
    ∃ fs', write_kernel_spec ctx fs t (some p) = (Except.ok p, fs')
      ∧ lookupFile fs' (p ++ "/" ++ "kernel.json")
          = some (FileData.jsonFile (get_kernel_dict ctx))
      ∧ filesUnder fs' p
          = (p ++ "/" ++ "kernel.json", FileData.jsonFile (get_kernel_dict ctx))
            :: (ctx.resources.filter (fun r => !(r.1 == "kernel.json"))).map
                (fun r => (p ++ "/" ++ r.1, r.2)) := by
  refine ⟨_, write_kernel_spec_some_eq ctx fs t p h1, ?_, ?_⟩
  · unfold lookupFile
    simp [List.find?_cons]
  · unfold filesUnder
    rw [List.filter_cons_of_pos (by exact isUnder_append p "kernel.json")]
    congr 1
    rw [List.filter_filter, List.filter_append]
    have hfsnil :
        fs.files.filter
          (fun a => isUnder p a.1 && !(a.1 == p ++ "/" ++ "kernel.json")) = [] := by
      rw [List.filter_congr (q := fun _ => false)
        (by intro x hx; simp [h2 x hx])]
      exact List.filter_false _
    rw [hfsnil, List.append_nil, List.filter_map]
    congr 1
    apply List.filter_congr
    intro r _
    simp only [Function.comp_apply, isUnder_append, append_left_cancel_beq,
      Bool.true_and]

/-- Closed witness for `write_kernel_spec_kernel_json_wins`: the bundled
resources contain a stale `kernel.json` blob, which the generated descriptor
replaces. -/
theorem write_kernel_spec_kernel_json_wins_witness :
    existsPath ⟨[], []⟩ "/dest" = false
    ∧ (∀ f ∈ FS.files ⟨[], []⟩, isUnder "/dest" f.1 = false)
    ∧ ∃ fs', write_kernel_spec
        ⟨"/usr/bin/python", 2,
          [("kernel.json", FileData.blob "stale"),
           ("logo-64x64.png", FileData.blob "img")]⟩
        ⟨[], []⟩ "/tmp/x" (some "/dest") = (Except.ok "/dest", fs')
      ∧ lookupFile fs' ("/dest" ++ "/" ++ "kernel.json")
          = some (FileData.jsonFile (get_kernel_dict
              ⟨"/usr/bin/python", 2,
                [("kernel.json", FileData.blob "stale"),
                 ("logo-64x64.png", FileData.blob "img")]⟩))
      ∧ filesUnder fs' "/dest"
          = ("/dest" ++ "/" ++ "kernel.json", FileData.jsonFile (get_kernel_dict
              ⟨"/usr/bin/python", 2,
                [("kernel.json", FileData.blob "stale"),
                 ("logo-64x64.png", FileData.blob "img")]⟩))
            :: ((Ctx.resources ⟨"/usr/bin/python", 2,
                  [("kernel.json", FileData.blob "stale"),
                   ("logo-64x64.png", FileData.blob "img")]⟩).filter
                  (fun r => !(r.1 == "kernel.json"))).map
                (fun r => ("/dest" ++ "/" ++ r.1, r.2)) :=
  ⟨by decide, (by intro f hf; cases hf),
   write_kernel_spec_kernel_json_wins
     ⟨"/usr/bin/python", 2,
       [("kernel.json", FileData.blob "stale"),
        ("logo-64x64.png", FileData.blob "img")]⟩
     ⟨[], []⟩ "/tmp/x" "/dest" (by decide) (by intro f hf; cases hf)⟩

/-- C5: calling `write_kernel_spec` a second time with the same explicit
path fails with the destination-exists filesystem error, which propagates to
the caller; repeated calls with an identical explicit path are not
idempotent. -/
theorem write_kernel_spec_not_idempotent (ctx : Ctx) (fs fs₁ : FS)
    (t t2 p : String)
    (h : write_kernel_spec ctx fs t (some p) = (Except.ok p, fs₁)) :
    write_kernel_spec ctx fs₁ t2 (some p)
      = (Except.error (FsError.destExists p), fs₁) := by
  unfold write_kernel_spec copytree writeFile at h
  by_cases hex : existsPath fs p = true
  · simp [hex] at h
  · rw [Bool.not_eq_true] at hex
    simp only [hex, Bool.false_eq_true, if_false] at h
    have hfs := congrArg Prod.snd h
    simp only at hfs
    subst hfs
    unfold write_kernel_spec copytree
    have hex1 : existsPath
        { dirs := p :: fs.dirs,
          files := (p ++ "/" ++ "kernel.json",
              FileData.jsonFile (get_kernel_dict ctx)) ::
            (ctx.resources.map (fun r => (p ++ "/" ++ r.1, r.2))
              ++ fs.files).filter
              (fun f => !(f.1 == p ++ "/" ++ "kernel.json")) : FS} p = true := by
      unfold existsPath
      simp [List.contains_eq_any_beq]
    simp only [hex1]
    rfl

/-- Closed witness for `write_kernel_spec_not_idempotent` at a concrete
context, empty starting filesystem and explicit path. -/
theorem write_kernel_spec_not_idempotent_witness :
    write_kernel_spec ⟨"/usr/bin/python", 2, []⟩ ⟨[], []⟩ "/tmp/x" (some "/k")
      = (Except.ok "/k",
         ⟨["/k"], [("/k/kernel.json",
            FileData.jsonFile (get_kernel_dict ⟨"/usr/bin/python", 2, []⟩))]⟩)
    ∧ write_kernel_spec ⟨"/usr/bin/python", 2, []⟩
        ⟨["/k"], [("/k/kernel.json",
           FileData.jsonFile (get_kernel_dict ⟨"/usr/bin/python", 2, []⟩))]⟩
        "/tmp/y" (some "/k")
      = (Except.error (FsError.destExists "/k"),
         ⟨["/k"], [("/k/kernel.json",
            FileData.jsonFile (get_kernel_dict ⟨"/usr/bin/python", 2, []⟩))]⟩) :=
  ⟨rfl,
   write_kernel_spec_not_idempotent ⟨"/usr/bin/python", 2, []⟩ ⟨[], []⟩
     ⟨["/k"], [("/k/kernel.json",
        FileData.jsonFile (get_kernel_dict ⟨"/usr/bin/python", 2, []⟩))]⟩
     "/tmp/x" "/tmp/y" "/k" rfl⟩

/-- Without any freshness assumption, staging either fails (leaving just the
created temp dir) or succeeds (creating the staging dir inside it). -/
lemma write_kernel_spec_none_cases (ctx : Ctx) (fs : FS) (t : String) :
    (∃ fe fs₁, write_kernel_spec ctx fs t none = (Except.error fe, fs₁)
      ∧ fs₁.dirs = (t ++ "_kernels") :: fs.dirs)
    ∨ (∃ p fs₁, write_kernel_spec ctx fs t none = (Except.ok p, fs₁)
      ∧ fs₁.dirs = p :: (t ++ "_kernels") :: fs.dirs) := by
  by_cases hex : existsPath
      { dirs := (t ++ "_kernels") :: fs.dirs, files := fs.files : FS}
      ((t ++ "_kernels") ++ "/" ++ KERNEL_NAME ctx) = true
  · left
    refine ⟨FsError.destExists ((t ++ "_kernels") ++ "/" ++ KERNEL_NAME ctx),
      { dirs := (t ++ "_kernels") :: fs.dirs, files := fs.files }, ?_, rfl⟩
    unfold write_kernel_spec mkdtemp copytree
    simp only [hex]
    rfl
  · right
    rw [Bool.not_eq_true] at hex
    refine ⟨(t ++ "_kernels") ++ "/" ++ KERNEL_NAME ctx,
      { dirs := ((t ++ "_kernels") ++ "/" ++ KERNEL_NAME ctx)
          :: (t ++ "_kernels") :: fs.dirs,
        files := (((t ++ "_kernels") ++ "/" ++ KERNEL_NAME ctx) ++ "/" ++ "kernel.json",
            FileData.jsonFile (get_kernel_dict ctx)) ::
          (ctx.resources.map
              (fun r => (((t ++ "_kernels") ++ "/" ++ KERNEL_NAME ctx) ++ "/" ++ r.1, r.2))
            ++ fs.files).filter
            (fun f =>
              !(f.1 == ((t ++ "_kernels") ++ "/" ++ KERNEL_NAME ctx) ++ "/" ++ "kernel.json")) },
      ?_, rfl⟩
    unfold write_kernel_spec mkdtemp copytree writeFile
    simp only [hex, Bool.false_eq_true, if_false]

/-- C6: whenever `install` fails, the failure is the propagated error of
either the staging step or the delegation step, the temporary directory
created by `mkdtemp` is still present in the final filesystem (cleanup runs
only on the success path), and on a delegation failure the staged spec
directory is leaked as well. -/
theorem install_error_leaks_staging (ctx : Ctx) {ε : Type}
    (ksm : String → String → Bool → Option String → Except ε String)
    (fs : FS) (t : String) (user : Bool) (kn : Option String)
    (pfx : Option String) (e : InstallErr ε) (fs' : FS)
    (h : install ctx ksm fs t user kn pfx = (Except.error e, fs')) :
    fs'.dirs.contains (t ++ "_kernels") = true
    ∧ ((∃ fe, write_kernel_spec ctx fs t none = (Except.error fe, fs')
          ∧ e = InstallErr.fsErr fe)
       ∨ (∃ ke path, write_kernel_spec ctx fs t none = (Except.ok path, fs')
          ∧ ksm path (kn.getD (KERNEL_NAME ctx)) user pfx = Except.error ke
          ∧ e = InstallErr.ksmErr ke
          ∧ existsPath fs' path = true)) := by
  unfold install at h
  rcases write_kernel_spec_none_cases ctx fs t with ⟨fe, fs₁, hw, hd⟩ | ⟨p, fs₁, hw, hd⟩
  · rw [hw] at h
    dsimp only at h
    simp only [Prod.mk.injEq, Except.error.injEq] at h
    obtain ⟨he, hfs⟩ := h
    subst hfs
    constructor
    · rw [hd]
      simp [List.contains_eq_any_beq, beq_self_eq_true]
    · exact Or.inl ⟨fe, hw, he.symm⟩
  · rw [hw] at h
    dsimp only at h
    rcases hk : ksm p (kn.getD (KERNEL_NAME ctx)) user pfx with ke | dest
    · rw [hk] at h
      dsimp only at h
      simp only [Prod.mk.injEq, Except.error.injEq] at h
      obtain ⟨he, hfs⟩ := h
      subst hfs
      constructor
      · rw [hd]
        simp [List.contains_eq_any_beq, beq_self_eq_true]
      · refine Or.inr ⟨ke, p, hw, hk, he.symm, ?_⟩
        unfold existsPath
        rw [hd]
        simp [List.contains_eq_any_beq, beq_self_eq_true]
    · rw [hk] at h
      dsimp only at h
      have hcont : fs₁.dirs.contains p = true := by
        rw [hd]
        simp [List.contains_eq_any_beq, beq_self_eq_true]
      unfold rmtree at h
      simp only [hcont, if_true] at h
      simp at h



/-- C1: `install` passes the staged spec path together with `kernel_name`,
`user` and `prefix` unchanged to the collaborator's install operation,
returns exactly that operation's result, and when the operation succeeds the
staging directory no longer exists afterwards. -/
theorem install_delegates (ctx : Ctx) {ε : Type}
    (ksm : String → String → Bool → Option String → Except ε String)
    (fs : FS) (t name : String) (user : Bool) (pfx : Option String)
    (hfresh : existsPath fs ((t ++ "_kernels") ++ "/" ++ KERNEL_NAME ctx) = false) :
    (install ctx ksm fs t user (some name) pfx).1
      = ((ksm ((t ++ "_kernels") ++ "/" ++ KERNEL_NAME ctx) name user pfx).mapError
          InstallErr.ksmErr)
    ∧ ∀ dest, ksm ((t ++ "_kernels") ++ "/" ++ KERNEL_NAME ctx) name user pfx
        = Except.ok dest →
        existsPath (install ctx ksm fs t user (some name) pfx).2
          ((t ++ "_kernels") ++ "/" ++ KERNEL_NAME ctx) = false := by
  have hw := write_kernel_spec_none_eq ctx fs t hfresh
  unfold install
  rw [hw]
  dsimp only [Option.getD]
  have hfile : ∀ f ∈ ((((t ++ "_kernels") ++ "/" ++ KERNEL_NAME ctx) ++ "/" ++ "kernel.json",
        FileData.jsonFile (get_kernel_dict ctx)) ::
      (ctx.resources.map
          (fun r => (((t ++ "_kernels") ++ "/" ++ KERNEL_NAME ctx) ++ "/" ++ r.1, r.2))
        ++ fs.files).filter
        (fun f =>
          !(f.1 == ((t ++ "_kernels") ++ "/" ++ KERNEL_NAME ctx) ++ "/" ++ "kernel.json"))),
      (f.1 == (t ++ "_kernels") ++ "/" ++ KERNEL_NAME ctx) = false := by
    intro f hf
    rcases List.mem_cons.mp hf with hh | hh
    · rw [hh]
      exact append_sep_ne _ _
    · rcases List.mem_append.mp (List.mem_of_mem_filter hh) with hm | hm
      · obtain ⟨r, _, heq⟩ := List.mem_map.mp hm
        rw [← heq]
        exact append_sep_ne _ _
      · unfold existsPath at hfresh
        have := (Bool.or_eq_false_iff.mp hfresh).2
        have := List.any_eq_false.mp this f hm
        rw [Bool.not_eq_true] at this
        exact this
  have hdir : (((t ++ "_kernels") ++ "/" ++ KERNEL_NAME ctx)
      :: (t ++ "_kernels") :: fs.dirs).contains
      ((t ++ "_kernels") ++ "/" ++ KERNEL_NAME ctx) = true := by
    simp [List.contains_eq_any_beq, beq_self_eq_true]
  rcases hk : ksm ((t ++ "_kernels") ++ "/" ++ KERNEL_NAME ctx) name user pfx
      with ke | dest
  · refine ⟨rfl, ?_⟩
    intro dest hdest
    cases hdest
  · obtain ⟨hr1, hr2⟩ := rmtree_removes
      { dirs := ((t ++ "_kernels") ++ "/" ++ KERNEL_NAME ctx)
          :: (t ++ "_kernels") :: fs.dirs,
        files := (((t ++ "_kernels") ++ "/" ++ KERNEL_NAME ctx) ++ "/" ++ "kernel.json",
            FileData.jsonFile (get_kernel_dict ctx)) ::
          (ctx.resources.map
              (fun r => (((t ++ "_kernels") ++ "/" ++ KERNEL_NAME ctx) ++ "/" ++ r.1, r.2))
            ++ fs.files).filter
            (fun f =>
              !(f.1 == ((t ++ "_kernels") ++ "/" ++ KERNEL_NAME ctx) ++ "/" ++ "kernel.json")) }
      ((t ++ "_kernels") ++ "/" ++ KERNEL_NAME ctx) hdir hfile
  -- reduce the match on rmtree using hr1
    have hpair : rmtree
        { dirs := ((t ++ "_kernels") ++ "/" ++ KERNEL_NAME ctx)
            :: (t ++ "_kernels") :: fs.dirs,
          files := (((t ++ "_kernels") ++ "/" ++ KERNEL_NAME ctx) ++ "/" ++ "kernel.json",
              FileData.jsonFile (get_kernel_dict ctx)) ::
            (ctx.resources.map
                (fun r => (((t ++ "_kernels") ++ "/" ++ KERNEL_NAME ctx) ++ "/" ++ r.1, r.2))
              ++ fs.files).filter
              (fun f =>
                !(f.1 == ((t ++ "_kernels") ++ "/" ++ KERNEL_NAME ctx) ++ "/" ++ "kernel.json")) }
        ((t ++ "_kernels") ++ "/" ++ KERNEL_NAME ctx)
        = (Except.ok (), (rmtree
            { dirs := ((t ++ "_kernels") ++ "/" ++ KERNEL_NAME ctx)
                :: (t ++ "_kernels") :: fs.dirs,
              files := (((t ++ "_kernels") ++ "/" ++ KERNEL_NAME ctx) ++ "/" ++ "kernel.json",
                  FileData.jsonFile (get_kernel_dict ctx)) ::
                (ctx.resources.map
                    (fun r => (((t ++ "_kernels") ++ "/" ++ KERNEL_NAME ctx) ++ "/" ++ r.1, r.2))
                  ++ fs.files).filter
                  (fun f =>
                    !(f.1 == ((t ++ "_kernels") ++ "/" ++ KERNEL_NAME ctx) ++ "/" ++ "kernel.json")) }
            ((t ++ "_kernels") ++ "/" ++ KERNEL_NAME ctx)).2) := by
      rw [← hr1]
    rw [hpair]
    exact ⟨rfl, fun dest2 _ => hr2⟩

/-- Closed witness for `install_delegates`: the end-to-end scenario with a
stub collaborator returning the canned destination `/fake/dest`, `user=true`
and `kernel_name="testkernel"`. -/
theorem install_delegates_witness :
    (install ⟨"/usr/bin/python", 2, []⟩
        (fun _ _ _ _ => (Except.ok "/fake/dest" : Except Unit String))
        ⟨[], []⟩ "/tmp/x" true (some "testkernel") none).1
      = Except.ok "/fake/dest"
    ∧ existsPath (install ⟨"/usr/bin/python", 2, []⟩
        (fun _ _ _ _ => (Except.ok "/fake/dest" : Except Unit String))
        ⟨[], []⟩ "/tmp/x" true (some "testkernel") none).2
        (("/tmp/x" ++ "_kernels") ++ "/" ++ KERNEL_NAME ⟨"/usr/bin/python", 2, []⟩)
      = false := by
  have h := install_delegates ⟨"/usr/bin/python", 2, []⟩
    (fun _ _ _ _ => (Except.ok "/fake/dest" : Except Unit String))
    ⟨[], []⟩ "/tmp/x" "testkernel" true none (by decide)
  exact ⟨h.1.trans rfl, h.2 "/fake/dest" rfl⟩

/-- Closed witness for `install_error_leaks_staging`: a stub collaborator
whose install operation fails; the error propagates and both the temp dir and
the staged directory remain. -/
theorem install_error_leaks_staging_witness :
    install ⟨"/usr/bin/python", 2, []⟩
        (fun _ _ _ _ => (Except.error "boom" : Except String String))
        ⟨[], []⟩ "/tmp/x" false none none
      = (Except.error (InstallErr.ksmErr "boom"),
         ⟨["/tmp/x_kernels/python2", "/tmp/x_kernels"],
          [("/tmp/x_kernels/python2/kernel.json",
            FileData.jsonFile (get_kernel_dict ⟨"/usr/bin/python", 2, []⟩))]⟩)
    ∧ (FS.dirs ⟨["/tmp/x_kernels/python2", "/tmp/x_kernels"],
          [("/tmp/x_kernels/python2/kernel.json",
            FileData.jsonFile (get_kernel_dict ⟨"/usr/bin/python", 2, []⟩))]⟩).contains
        ("/tmp/x" ++ "_kernels") = true := by
  have h := install_error_leaks_staging ⟨"/usr/bin/python", 2, []⟩
    (fun _ _ _ _ => (Except.error "boom" : Except String String))
    ⟨[], []⟩ "/tmp/x" false none none (InstallErr.ksmErr "boom")
    ⟨["/tmp/x_kernels/python2", "/tmp/x_kernels"],
     [("/tmp/x_kernels/python2/kernel.json",
       FileData.jsonFile (get_kernel_dict ⟨"/usr/bin/python", 2, []⟩))]⟩
    rfl
  exact ⟨rfl, h.1⟩

/-- C7: the CLI entry point parses exactly the flags `--user` (boolean,
default false), `--name` (default the runtime kernel name) and `--prefix`
(optional), rejects anything else, invokes `install` with the parsed values,
and on success prints `Installed kernelspec <name> in <path>` with the parsed
name and install's returned path. -/
theorem cli_entry_spec (ctx : Ctx) {ε : Type}
    (ksm : String → String → Bool → Option String → Except ε String)
    (fs : FS) (t : String) :
    parseArgs [] (defaultOpts ctx) = some ⟨false, KERNEL_NAME ctx, none⟩
    ∧ (∀ rest o, parseArgs ("--user" :: rest) o
        = parseArgs rest { o with user := true })
    ∧ (∀ v rest o, parseArgs ("--name" :: v :: rest) o
        = parseArgs rest { o with name := v })
    ∧ (∀ v rest o, parseArgs ("--prefix" :: v :: rest) o
        = parseArgs rest { o with pfx := some v })
    ∧ (∀ a rest o, a ≠ "--user" → a ≠ "--name" → a ≠ "--prefix" →
        parseArgs (a :: rest) o = none)
    ∧ (∀ args opts dest fs2,
        parseArgs args (defaultOpts ctx) = some opts →
        install ctx ksm fs t opts.user (some opts.name) opts.pfx
          = (Except.ok dest, fs2) →
        mainEntry ctx ksm fs t args
          = some (Except.ok
              ("Installed kernelspec " ++ opts.name ++ " in " ++ dest), fs2)) := by
  refine ⟨rfl, ?_, ?_, ?_, ?_, ?_⟩
  · intro rest o
    rw [parseArgs.eq_def]
    simp
  · intro v rest o
    rw [parseArgs.eq_def]
    simp
  · intro v rest o
    rw [parseArgs.eq_def]
    simp
  · intro a rest o h1 h2 h3
    rw [parseArgs.eq_def]
    dsimp only
    rw [if_neg h1, if_neg h2, if_neg h3]
  · intro args opts dest fs2 hparse hinst
    unfold mainEntry
    rw [hparse]
    dsimp only
    rw [hinst]

/-- Closed witness for `cli_entry_spec`: running the CLI with
`--user --name testkernel` against a stub collaborator prints the expected
line with the parsed name and the stub's destination. -/
theorem cli_entry_spec_witness :
    parseArgs ["--user", "--name", "testkernel"]
        (defaultOpts ⟨"/usr/bin/python", 2, []⟩)
      = some ⟨true, "testkernel", none⟩
    ∧ mainEntry ⟨"/usr/bin/python", 2, []⟩
        (fun _ _ _ _ => (Except.ok "/fake/dest" : Except Unit String))
        ⟨[], []⟩ "/tmp/x" ["--user", "--name", "testkernel"]
      = some (Except.ok "Installed kernelspec testkernel in /fake/dest",
          ⟨["/tmp/x_kernels"], []⟩) := by
  refine ⟨rfl, ?_⟩
  have h := (cli_entry_spec ⟨"/usr/bin/python", 2, []⟩
    (fun _ _ _ _ => (Except.ok "/fake/dest" : Except Unit String))
    ⟨[], []⟩ "/tmp/x").2.2.2.2.2
    ["--user", "--name", "testkernel"] ⟨true, "testkernel", none⟩
    "/fake/dest" ⟨["/tmp/x_kernels"], []⟩ rfl rfl
  exact h.trans rfl

/-- The heap-level call allocates a fresh list and extends only it: the call
equals appending one new cell holding exactly the pure function's result for
the current contents of the `extra_arguments` object. -/
lemma make_ipkernel_cmd_heap_eq (ctx : Ctx) (mod : String)
    (exe : Option String) (h : PyHeap) (dRef : Nat)
    (hlt : dRef < h.cells.length) :
    make_ipkernel_cmd_heap ctx mod exe dRef h
      = (h.cells.length,
         ⟨h.cells ++ [make_ipkernel_cmd ctx mod exe (h.read dRef)]⟩) := by
  unfold make_ipkernel_cmd_heap PyHeap.alloc PyHeap.extendRef PyHeap.read
  refine Prod.ext rfl ?_
  have hread1 : (h.cells ++ [[exe.getD ctx.sys_executable, "-m", mod, "-f",
      "{connection_file}"]]).getD h.cells.length []
      = [exe.getD ctx.sys_executable, "-m", mod, "-f", "{connection_file}"] := by
    rw [List.getD_append_right _ _ _ _ (le_refl _)]
    simp
  have hread2 : (h.cells ++ [[exe.getD ctx.sys_executable, "-m", mod, "-f",
      "{connection_file}"]]).getD dRef [] = h.cells.getD dRef [] :=
    List.getD_append _ _ _ _ hlt
  simp only [hread1, hread2]
  have hset : ∀ (l : List (List String)) (x v : List String),
      (l ++ [x]).set l.length v = l ++ [v] := by
    intro l x v
    rw [List.set_append]
    simp
  rw [hset]
  rfl

/-- C8: `make_ipkernel_cmd` never mutates its `extra_arguments` argument: a
call with default arguments leaves every pre-existing list object (the shared
default `[]` in particular) unchanged, its fresh result holds the pure
function's output, the empty default stays empty, and a second default call
returns an equal result — no cross-call state leakage. -/
theorem make_ipkernel_cmd_no_default_mutation (ctx : Ctx) (h : PyHeap)
    (dRef : Nat) (hlt : dRef < h.cells.length) :
    (∀ r, r < h.cells.length →
      (make_ipkernel_cmd_heap ctx "ipykernel" none dRef h).2.read r = h.read r)
    ∧ (make_ipkernel_cmd_heap ctx "ipykernel" none dRef h).2.read
        (make_ipkernel_cmd_heap ctx "ipykernel" none dRef h).1
        = make_ipkernel_cmd ctx "ipykernel" none (h.read dRef)
    ∧ (h.read dRef = [] →
        (make_ipkernel_cmd_heap ctx "ipykernel" none dRef h).2.read dRef = [])
    ∧ (make_ipkernel_cmd_heap ctx "ipykernel" none dRef
          (make_ipkernel_cmd_heap ctx "ipykernel" none dRef h).2).2.read
        (make_ipkernel_cmd_heap ctx "ipykernel" none dRef
          (make_ipkernel_cmd_heap ctx "ipykernel" none dRef h).2).1
        = make_ipkernel_cmd ctx "ipykernel" none (h.read dRef) := by
  have hc := make_ipkernel_cmd_heap_eq ctx "ipykernel" none h dRef hlt
  have hunch : ∀ r, r < h.cells.length →
      (make_ipkernel_cmd_heap ctx "ipykernel" none dRef h).2.read r
        = h.read r := by
    intro r hr
    rw [hc]
    unfold PyHeap.read
    exact List.getD_append _ _ _ _ hr
  refine ⟨hunch, ?_, ?_, ?_⟩
  · rw [hc]
    unfold PyHeap.read
    rw [List.getD_append_right _ _ _ _ (le_refl _)]
    simp
  · intro hempty
    rw [hunch dRef hlt, hempty]
  · have hlt2 : dRef < ((make_ipkernel_cmd_heap ctx "ipykernel" none dRef
        h).2).cells.length := by
      rw [hc]
      simp only [List.length_append, List.length_cons, List.length_nil]
      omega
    have hc2 := make_ipkernel_cmd_heap_eq ctx "ipykernel" none
      (make_ipkernel_cmd_heap ctx "ipykernel" none dRef h).2 dRef hlt2
    rw [hc2]
    unfold PyHeap.read
    rw [List.getD_append_right _ _ _ _ (le_refl _), Nat.sub_self]
    have hz : ∀ (v : List String), List.getD [v] 0 [] = v := fun v => rfl
    rw [hz]
    have hu := hunch dRef hlt
    unfold PyHeap.read at hu
    rw [hu]

/-- Closed witness for `make_ipkernel_cmd_no_default_mutation` on a one-cell
heap holding the empty shared default list. -/
theorem make_ipkernel_cmd_no_default_mutation_witness :
    0 < (PyHeap.cells ⟨[[]]⟩).length
    ∧ (make_ipkernel_cmd_heap ⟨"/usr/bin/python", 2, []⟩ "ipykernel" none 0
        ⟨[[]]⟩).2.read 0 = []
    ∧ (make_ipkernel_cmd_heap ⟨"/usr/bin/python", 2, []⟩ "ipykernel" none 0
        ⟨[[]]⟩).2.read
        (make_ipkernel_cmd_heap ⟨"/usr/bin/python", 2, []⟩ "ipykernel" none 0
          ⟨[[]]⟩).1
      = make_ipkernel_cmd ⟨"/usr/bin/python", 2, []⟩ := by
  have h := make_ipkernel_cmd_no_default_mutation ⟨"/usr/bin/python", 2, []⟩
    ⟨[[]]⟩ 0 (by decide)
  exact ⟨by decide, (h.2.2.1 rfl), h.2.1.trans rfl⟩

end KernelSpec
